import Mathlib

/-!
Shallow embedding of the appointment-extraction core of
`python-service/chatbot_service.py` (class `AppointmentChatbot`):
the keyword-based intent classifier (`_extract_appointment_data`),
the attribute parser (`_parse_appointment_details`) and the rule-based
date/time extractor (`_parse_date_time`).

Timestamps are modelled by `DateTime`: a signed day count (the calendar
date, one unit per day; the convention used in the concrete examples is
that day 0 is Monday 2024-01-01, so `day % 7 = 0` means Monday, matching
Python's `datetime.weekday()` numbering) together with an hour and a
minute.  Seconds and microseconds are always zeroed by the source before
any timestamp escapes, so they are omitted.  Python's
`datetime.replace(hour=h, minute=m)` raises `ValueError` on an
out-of-range argument; the only call site with non-constant arguments is
modelled by `replaceTime`, returning `none` for the raised exception.
-/

/-- ASCII lowercasing of a single character, as `str.lower` acts on the
ASCII inputs the keyword matcher cares about. -/
def lowerChar (c : Char) : Char :=
  if 65 ≤ c.toNat ∧ c.toNat ≤ 90 then Char.ofNat (c.toNat + 32) else c

/-- `text.lower()` as a character list. -/
def lowerStr (s : String) : List Char := s.data.map lowerChar

/-- Does `needle` occur at the very start of the list? -/
def prefAt : List Char → List Char → Bool
  | [], _ => true
  | _ :: _, [] => false
  | a :: as, b :: bs => a == b && prefAt as bs

/-- Python's substring containment `needle in hay`. -/
def substr (needle : List Char) : List Char → Bool
  | [] => needle.isEmpty
  | b :: bs => prefAt needle (b :: bs) || substr needle bs

/-- `keyword in text` for a keyword given as a string literal. -/
def hasKw (k : String) (hay : List Char) : Bool := substr k.data hay

/-- `any(keyword in hay for keyword in ks)`. -/
def anyKw (ks : List String) (hay : List Char) : Bool :=
  ks.any (fun k => substr k.data hay)

/-- Timezone-naive timestamp: day count plus time of day. -/
structure DateTime where
  day : Int
  hour : Nat
  minute : Nat
deriving DecidableEq, Repr

/-- `t + timedelta(days=k)`. -/
def addDays (t : DateTime) (k : Int) : DateTime := { t with day := t.day + k }

/-- `t.replace(hour=h, minute=m, ...)` at call sites whose arguments are
in-range literals (the Python call cannot raise there). -/
def setTime (t : DateTime) (h m : Nat) : DateTime := { t with hour := h, minute := m }

/-- `t.replace(hour=h, minute=m)` with parsed, possibly out-of-range
arguments: `none` models the raised `ValueError`. -/
def replaceTime (t : DateTime) (h m : Nat) : Option DateTime :=
  if h ≤ 23 ∧ m ≤ 59 then some (setTime t h m) else none

/-- `datetime.weekday()`: 0 = Monday … 6 = Sunday. -/
def DateTime.weekday (t : DateTime) : Int := t.day % 7

/-- Linearisation of a timestamp for chronological comparison. -/
def DateTime.toMinutes (t : DateTime) : Int :=
  t.day * 1440 + (t.hour : Int) * 60 + (t.minute : Int)

/-- A well-formed wall-clock value. -/
def DateTime.WF (t : DateTime) : Prop := t.hour < 24 ∧ t.minute < 60

/-! ### The three time regexes

`_parse_date_time` searches, in order, for
`(\d{1,2}):(\d{2})\s*(am|pm)?`, then `(\d{1,2})\s*(am|pm)`, then
`(\d{1,2})\s*o'?clock`, each with `re.search` (leftmost match,
greedy `\d{1,2}` with backtracking). -/

inductive AmPm where
  | am : AmPm
  | pm : AmPm
deriving DecidableEq, Repr

/-- Python regex `\s` on the ASCII plane. -/
def isSp (c : Char) : Bool :=
  c == ' ' || c == Char.ofNat 9 || c == Char.ofNat 10 ||
  c == Char.ofNat 13 || c == Char.ofNat 11 || c == Char.ofNat 12

/-- Greedy `\s*`. -/
def skipSp : List Char → List Char
  | [] => []
  | c :: cs => if isSp c then skipSp cs else c :: cs

/-- Numeric value of a digit character. -/
def dv (c : Char) : Nat := c.toNat - 48

/-- `(am|pm)` at the current position. -/
def ampmAt (l : List Char) : Option AmPm :=
  if prefAt "am".data l then some AmPm.am
  else if prefAt "pm".data l then some AmPm.pm
  else none

/-- After `H:` has matched: exactly two minute digits, then `\s*(am|pm)?`. -/
def afterColon (h : Nat) (l : List Char) : Option (Nat × Nat × Option AmPm) :=
  match l with
  | d1 :: d2 :: rest =>
    if d1.isDigit ∧ d2.isDigit then
      some (h, 10 * dv d1 + dv d2, ampmAt (skipSp rest))
    else none
  | _ => none

/-- `(\d{1,2}):(\d{2})\s*(am|pm)?` anchored at the current position:
greedy two-digit hour backtracking to one digit when no colon follows. -/
def matchP1At (l : List Char) : Option (Nat × Nat × Option AmPm) :=
  match l with
  | c0 :: c1 :: rest =>
    if c0.isDigit then
      if c1.isDigit then
        match rest with
        | c2 :: rest2 =>
          if c2 == ':' then afterColon (10 * dv c0 + dv c1) rest2 else none
        | [] => none
      else if c1 == ':' then afterColon (dv c0) rest
      else none
    else none
  | _ => none

/-- `re.search` for the first pattern: leftmost anchored match wins. -/
def searchP1 : List Char → Option (Nat × Nat × Option AmPm)
  | [] => none
  | c :: cs =>
    match matchP1At (c :: cs) with
    | some r => some r
    | none => searchP1 cs

/-- `(\d{1,2})\s*(am|pm)` anchored at the current position. -/
def matchP2At (l : List Char) : Option (Nat × AmPm) :=
  match l with
  | [] => none
  | c0 :: rest =>
    if c0.isDigit then
      match rest with
      | [] => none
      | c1 :: rest1 =>
        if c1.isDigit then
          match ampmAt (skipSp rest1) with
          | some ap => some (10 * dv c0 + dv c1, ap)
          | none =>
            match ampmAt (skipSp rest) with
            | some ap => some (dv c0, ap)
            | none => none
        else
          match ampmAt (skipSp rest) with
          | some ap => some (dv c0, ap)
          | none => none
    else none

/-- `re.search` for the second pattern. -/
def searchP2 : List Char → Option (Nat × AmPm)
  | [] => none
  | c :: cs =>
    match matchP2At (c :: cs) with
    | some r => some r
    | none => searchP2 cs

/-- `o'?clock` at the current position (apostrophe optional). -/
def oclockAt (l : List Char) : Bool :=
  match l with
  | [] => false
  | c :: rest =>
    if c == 'o' then
      match rest with
      | [] => false
      | c2 :: rest2 =>
        if c2 == Char.ofNat 39 then prefAt "clock".data rest2
        else prefAt "clock".data rest
    else false

/-- `(\d{1,2})\s*o'?clock` anchored at the current position. -/
def matchP3At (l : List Char) : Option Nat :=
  match l with
  | [] => none
  | c0 :: rest =>
    if c0.isDigit then
      match rest with
      | [] => none
      | c1 :: rest1 =>
        if c1.isDigit then
          if oclockAt (skipSp rest1) then some (10 * dv c0 + dv c1)
          else if oclockAt (skipSp rest) then some (dv c0)
          else none
        else if oclockAt (skipSp rest) then some (dv c0)
        else none
    else none

/-- `re.search` for the third pattern. -/
def searchP3 : List Char → Option Nat
  | [] => none
  | c :: cs =>
    match matchP3At (c :: cs) with
    | some r => some r
    | none => searchP3 cs

/-- The pattern loop of `_parse_date_time`: the first pattern that
matches anywhere in the message wins; the result carries hour, minute
and the optional meridiem group. -/
def findTime (ml : List Char) : Option (Nat × Nat × Option AmPm) :=
  match searchP1 ml with
  | some r => some r
  | none =>
    match searchP2 ml with
    | some (h, ap) => some (h, 0, some ap)
    | none =>
      match searchP3 ml with
      | some h => some (h, 0, none)
      | none => none

/-- 24-hour normalisation: `pm` adds 12 unless the hour is 12, `am`
turns 12 into 0. -/
def to24 (h : Nat) (ap : Option AmPm) : Nat :=
  match ap with
  | some AmPm.pm => if h ≠ 12 then h + 12 else h
  | some AmPm.am => if h == 12 then 0 else h
  | none => h

/-! ### Base-date resolution -/

/-- The `days_of_week` dict, in insertion order. -/
def days_of_week : List (String × Nat) :=
  [("monday", 0), ("tuesday", 1), ("wednesday", 2), ("thursday", 3),
   ("friday", 4), ("saturday", 5), ("sunday", 6)]

/-- The weekday loop: the first dict entry whose name occurs in the
message (then `break`). -/
def firstWeekday (ml : List Char) : Option Nat :=
  (days_of_week.find? (fun p => substr p.1.data ml)).map (fun p => p.2)

/-- `days_ahead = day_num - now.weekday(); if days_ahead <= 0: += 7`. -/
def daysAhead (dn : Nat) (now : DateTime) : Int :=
  if (dn : Int) - now.weekday ≤ 0 then (dn : Int) - now.weekday + 7
  else (dn : Int) - now.weekday

/-- Base-date resolution of `_parse_date_time`.  In the source the
default (tomorrow 10:00) and the `today`/`tomorrow` if/elif pair are
computed first, and the weekday loop then runs unconditionally — it is
not an `elif` — so when a weekday name is present it overwrites
whatever the earlier branches chose; the earlier value is dead in that
case, which the match below makes explicit. -/
def baseOf (ml : List Char) (now : DateTime) : DateTime :=
  match firstWeekday ml with
  | some dn => setTime (addDays now (daysAhead dn now)) 10 0
  | none =>
    if hasKw "today" ml then setTime now 10 0
    else if hasKw "tomorrow" ml then setTime (addDays now 1) 10 0
    else setTime (addDays now 1) 10 0

/-- The clock-pattern step: on a match, `base_date.replace(hour, minute)`
with the parsed values (which may raise, hence `Option`). -/
def withClockTime (ml : List Char) (b : DateTime) : Option DateTime :=
  match findTime ml with
  | some (h, m, ap) => replaceTime b (to24 h ap) m
  | none => some b

/-- The trailing if/elif chain on `morning` / `afternoon` / `evening`. -/
def applyDayWords (ml : List Char) (b : DateTime) : DateTime :=
  if hasKw "morning" ml then setTime b 9 0
  else if hasKw "afternoon" ml then setTime b 14 0
  else if hasKw "evening" ml then setTime b 18 0
  else b

/-- `_parse_date_time(user_message)`, with the ambient `datetime.now()`
made an explicit `now` argument.  `none` models the `ValueError` raised
by `replace` on an out-of-range parsed time. -/
def parse_date_time (text : String) (now : DateTime) : Option DateTime :=
  (withClockTime (lowerStr text) (baseOf (lowerStr text) now)).map
    (applyDayWords (lowerStr text))

/-! ### Intent classifier and pipeline -/

def appointment_keywords : List String :=
  ["schedule", "book", "appointment", "meeting", "consultation",
   "checkup", "visit", "session", "reservation", "make an appointment"]

/-- The apostrophe character, as it appears inside two confirmation
phrases. -/
def apos : String := (Char.ofNat 39).toString

def confirmation_keywords : List String :=
  ["scheduled", "booked", "confirmed", "appointment created",
   "i" ++ apos ++ "ve scheduled", "your appointment is", "appointment has been",
   "i" ++ apos ++ "ll schedule", "let me schedule", "i can schedule"]

def detail_keywords : List String :=
  ["tomorrow", "today", "next week", "monday", "tuesday", "wednesday",
   "thursday", "friday", "saturday", "sunday", "am", "pm", "morning",
   "afternoon", "evening", "medical", "consultation", "checkup"]

/-- The scheduling-intent gate of `_extract_appointment_data`. -/
def gate (user : String) : Bool := anyKw appointment_keywords (lowerStr user)

/-- `has_details`. -/
def has_details (user : String) : Bool := anyKw detail_keywords (lowerStr user)

/-- `bot_confirms`. -/
def bot_confirms (bot : String) : Bool := anyKw confirmation_keywords (lowerStr bot)

/-- The classifier's overall decision: gate, then
`has_details or bot_confirms`. -/
def should_create (user bot : String) : Bool :=
  gate user && (has_details user || bot_confirms bot)

/-- The appointment record assembled by `_parse_appointment_details`. -/
structure ApptData where
  title : String
  description : String
  appointment_type : String
  duration_minutes : Nat
  location : Option String
  notes : Option String
  appointment_date : DateTime
deriving DecidableEq, Repr

/-- The appointment-type if/elif chain: medical words first, then
consultation, then follow-up, else the general default; the title is
the fixed label of the chosen type. -/
def appt_type_title (ml : List Char) : String × String :=
  if anyKw ["medical", "doctor", "checkup", "health"] ml then
    ("medical", "Medical Appointment")
  else if anyKw ["consultation", "consult"] ml then
    ("consultation", "Consultation")
  else if anyKw ["follow", "follow-up"] ml then
    ("follow-up", "Follow-up Appointment")
  else ("general", "Appointment")

/-- The duration if/elif chain over literal substrings, default 60. -/
def duration_of (ml : List Char) : Nat :=
  if hasKw "30 minutes" ml || hasKw "half hour" ml then 30
  else if hasKw "45 minutes" ml then 45
  else if hasKw "90 minutes" ml || hasKw "1.5 hours" ml then 90
  else if hasKw "2 hours" ml || hasKw "120 minutes" ml then 120
  else 60

/-- `_parse_appointment_details`: assembles the record; its
`try/except` turns the date parser's `ValueError` into `None`. -/
def parse_appointment_details (user : String) (now : DateTime) : Option ApptData :=
  match parse_date_time user now with
  | none => none
  | some dt =>
    some { title := (appt_type_title (lowerStr user)).2
           description := user
           appointment_type := (appt_type_title (lowerStr user)).1
           duration_minutes := duration_of (lowerStr user)
           location := none
           notes := none
           appointment_date := dt }

/-- The pure decision part of `_extract_appointment_data`: the draft it
assembles when the classifier says yes, before any persistence. -/
def extract_pipeline (user bot : String) (now : DateTime) : Option ApptData :=
  if should_create user bot then parse_appointment_details user now else none

/-- `_extract_appointment_data`, with the database insert
(`_create_appointment`) abstracted as `db` (returning the new row id,
or `none` on a database error).  The second component records the
inserts the function itself performed; the result carries the returned
data together with the id stored into it. -/
def extract_appointment_data (db : ApptData → Option Nat) (user bot : String)
    (now : DateTime) : Option (ApptData × Nat) × List ApptData :=
  if gate user then
    if has_details user || bot_confirms bot then
      match parse_appointment_details user now with
      | some d =>
        match db d with
        | some id => (some (d, id), [d])
        | none => (none, [d])
      | none => (none, [])
    else (none, [])
  else (none, [])

/-! ### Structural lemmas about the date/time extractor -/

lemma setTime_day (t : DateTime) (h m : Nat) : (setTime t h m).day = t.day := rfl

lemma applyDayWords_day (ml : List Char) (b : DateTime) :
    (applyDayWords ml b).day = b.day := by
  unfold applyDayWords
  split_ifs <;> rfl

lemma applyDayWords_hm (ml : List Char) (b : DateTime)
    (hb : b.hour ≤ 23 ∧ b.minute ≤ 59) :
    (applyDayWords ml b).hour ≤ 23 ∧ (applyDayWords ml b).minute ≤ 59 := by
  unfold applyDayWords
  split_ifs <;> simp_all [setTime]

lemma replaceTime_eq_some {t : DateTime} {h m : Nat} {b : DateTime}
    (hr : replaceTime t h m = some b) :
    b.day = t.day ∧ b.hour = h ∧ b.minute = m ∧ h ≤ 23 ∧ m ≤ 59 := by
  unfold replaceTime at hr
  split at hr
  · cases hr
    rename_i hc
    exact ⟨rfl, rfl, rfl, hc.1, hc.2⟩
  · cases hr

lemma withClockTime_day {ml : List Char} {b b2 : DateTime}
    (h : withClockTime ml b = some b2) : b2.day = b.day := by
  unfold withClockTime at h
  cases hf : findTime ml with
  | none => rw [hf] at h; cases h; rfl
  | some r =>
    obtain ⟨hh, mm, ap⟩ := r
    rw [hf] at h
    exact (replaceTime_eq_some h).1

lemma withClockTime_hm {ml : List Char} {b b2 : DateTime}
    (hb : b.hour ≤ 23 ∧ b.minute ≤ 59)
    (h : withClockTime ml b = some b2) : b2.hour ≤ 23 ∧ b2.minute ≤ 59 := by
  unfold withClockTime at h
  cases hf : findTime ml with
  | none => rw [hf] at h; cases h; exact hb
  | some r =>
    obtain ⟨hh, mm, ap⟩ := r
    rw [hf] at h
    obtain ⟨-, h1, h2, h3, h4⟩ := replaceTime_eq_some h
    exact ⟨h1 ▸ h3, h2 ▸ h4⟩

lemma baseOf_hm (ml : List Char) (now : DateTime) :
    (baseOf ml now).hour = 10 ∧ (baseOf ml now).minute = 0 := by
  unfold baseOf
  cases firstWeekday ml with
  | some dn => exact ⟨rfl, rfl⟩
  | none => split_ifs <;> exact ⟨rfl, rfl⟩

lemma baseOf_day_weekday {ml : List Char} {dn : Nat} (now : DateTime)
    (h : firstWeekday ml = some dn) :
    (baseOf ml now).day = now.day + daysAhead dn now := by
  unfold baseOf
  rw [h]
  rfl

lemma baseOf_day_today {ml : List Char} (now : DateTime)
    (h : firstWeekday ml = none) (ht : hasKw "today" ml = true) :
    (baseOf ml now).day = now.day := by
  unfold baseOf
  rw [h, if_pos ht]
  rfl

lemma baseOf_day_no_today {ml : List Char} (now : DateTime)
    (h : firstWeekday ml = none) (ht : hasKw "today" ml = false) :
    (baseOf ml now).day = now.day + 1 := by
  unfold baseOf
  rw [h, if_neg (by simp [ht])]
  split_ifs <;> rfl

lemma parse_date_time_eq_some {text : String} {now ts : DateTime}
    (h : parse_date_time text now = some ts) :
    ∃ b, withClockTime (lowerStr text) (baseOf (lowerStr text) now) = some b ∧
      ts = applyDayWords (lowerStr text) b := by
  unfold parse_date_time at h
  rw [Option.map_eq_some'] at h
  obtain ⟨b, h1, h2⟩ := h
  exact ⟨b, h1, h2.symm⟩

lemma parse_date_time_day {text : String} {now ts : DateTime}
    (h : parse_date_time text now = some ts) :
    ts.day = (baseOf (lowerStr text) now).day := by
  obtain ⟨b, h1, rfl⟩ := parse_date_time_eq_some h
  rw [applyDayWords_day]
  exact withClockTime_day h1

lemma parse_date_time_hm {text : String} {now ts : DateTime}
    (h : parse_date_time text now = some ts) :
    ts.hour ≤ 23 ∧ ts.minute ≤ 59 := by
  obtain ⟨b, h1, rfl⟩ := parse_date_time_eq_some h
  refine applyDayWords_hm _ _ ?_
  refine withClockTime_hm ?_ h1
  obtain ⟨h10, h0⟩ := baseOf_hm (lowerStr text) now
  omega

lemma daysAhead_pos (dn : Nat) (now : DateTime) : 1 ≤ daysAhead dn now := by
  unfold daysAhead DateTime.weekday
  have h1 : now.day % 7 < 7 := Int.emod_lt_of_pos _ (by norm_num)
  have h2 : 0 ≤ now.day % 7 := Int.emod_nonneg _ (by norm_num)
  have h3 : (0 : Int) ≤ (dn : Int) := Int.natCast_nonneg dn
  split_ifs <;> omega

lemma daysAhead_of_eq {dn : Nat} {now : DateTime}
    (h : (dn : Int) = now.weekday) : daysAhead dn now = 7 := by
  unfold daysAhead
  rw [h]
  simp

/-! ### The claims -/

/-- C1 counterexample: on the input `"77:88"` the first clock pattern
matches with hour 77 and minute 88, and `replace` raises `ValueError`
(modelled by `none`), so the extractor does not return a timestamp. -/
theorem c1_out_of_range_clock_fails :
    parse_date_time "77:88" ⟨0, 0, 0⟩ = none := by rfl

/-- C1 (amended): for every input text and reference time the extractor
returns a timestamp, except exactly when a clock pattern matches and the
matched time is out of range — hour above 23 after am/pm conversion, or
minute above 59 — in which case `datetime.replace` raises `ValueError`
instead of producing a timestamp. -/
theorem c1_total_except_invalid_clock (text : String) (now : DateTime) :
    parse_date_time text now = none ↔
      ∃ h m ap, findTime (lowerStr text) = some (h, m, ap) ∧
        ¬(to24 h ap ≤ 23 ∧ m ≤ 59) := by
  unfold parse_date_time
  rw [Option.map_eq_none']
  unfold withClockTime
  cases hf : findTime (lowerStr text) with
  | none => simp
  | some r =>
    obtain ⟨h, m, ap⟩ := r
    simp only [Option.some.injEq, Prod.mk.injEq]
    unfold replaceTime
    split_ifs with hc
    · simp only [reduceCtorEq, false_iff]
      rintro ⟨h2, m2, ap2, ⟨rfl, rfl, rfl⟩, hn⟩
      exact hn hc
    · simp only [true_iff]
      exact ⟨h, m, ap, ⟨rfl, rfl, rfl⟩, hc⟩

/-- C1 witness: the characterisation applied at the concrete failing
input `"99:99"`. -/
theorem c1_total_except_invalid_clock_witness :
    parse_date_time "99:99" ⟨0, 0, 0⟩ = none :=
  (c1_total_except_invalid_clock "99:99" ⟨0, 0, 0⟩).mpr
    ⟨99, 99, none, by rfl, by decide⟩

/-- C2: whenever the extractor returns a timestamp, a `morning` keyword
forces 09:00, an `afternoon` keyword (with no `morning`) forces 14:00,
and an `evening` keyword (with neither) forces 18:00, overriding the
default and any explicit clock time; concretely,
`extract("Monday at 3pm in the morning", Mon 2024-01-01 00:00)` yields
09:00 on the following Monday (day 7), not 15:00. -/
theorem c2_day_word_overrides :
    (∀ (text : String) (now ts : DateTime), parse_date_time text now = some ts →
      (hasKw "morning" (lowerStr text) = true → ts.hour = 9 ∧ ts.minute = 0) ∧
      (hasKw "morning" (lowerStr text) = false → hasKw "afternoon" (lowerStr text) = true →
        ts.hour = 14 ∧ ts.minute = 0) ∧
      (hasKw "morning" (lowerStr text) = false → hasKw "afternoon" (lowerStr text) = false →
        hasKw "evening" (lowerStr text) = true → ts.hour = 18 ∧ ts.minute = 0)) ∧
    parse_date_time "Monday at 3pm in the morning" ⟨0, 0, 0⟩ = some ⟨7, 9, 0⟩ := by
  constructor
  · intro text now ts h
    obtain ⟨b, hb, rfl⟩ := parse_date_time_eq_some h
    unfold applyDayWords
    refine ⟨fun h1 => ?_, fun h1 h2 => ?_, fun h1 h2 h3 => ?_⟩
    · rw [if_pos h1]; exact ⟨rfl, rfl⟩
    · rw [if_neg (by simp [h1]), if_pos h2]; exact ⟨rfl, rfl⟩
    · rw [if_neg (by simp [h1]), if_neg (by simp [h2]), if_pos h3]; exact ⟨rfl, rfl⟩
  · rfl

/-- C2 witness: the override theorem applied at
`"Monday at 3pm in the morning"` with reference Monday day 0. -/
theorem c2_day_word_overrides_witness :
    (⟨7, 9, 0⟩ : DateTime).hour = 9 ∧ (⟨7, 9, 0⟩ : DateTime).minute = 0 :=
  (c2_day_word_overrides.1 "Monday at 3pm in the morning" ⟨0, 0, 0⟩ ⟨7, 9, 0⟩
    (by rfl)).1 (by rfl)

/-- C3 counterexample: `"today monday"` with reference Monday 2024-01-01
(day 0) resolves to the NEXT Monday (day 7) at 10:00, not to the
reference date — the weekday loop runs after the `today` branch and
overwrites it, so `today` does not take priority over a weekday name. -/
theorem c3_weekday_overrides_today :
    hasKw "today" (lowerStr "today monday") = true ∧
    firstWeekday (lowerStr "today monday") = some 0 ∧
    parse_date_time "today monday" ⟨0, 0, 0⟩ = some ⟨7, 10, 0⟩ ∧
    (⟨7, 10, 0⟩ : DateTime) ≠ ⟨0, 10, 0⟩ := by
  refine ⟨by rfl, by rfl, by rfl, by decide⟩

/-- C3 (amended): base-date resolution gives a present weekday name the
highest priority (the weekday loop overwrites the `today`/`tomorrow`
result): with a weekday name the base date is its next occurrence;
otherwise `today` gives the reference date, else (`tomorrow` or the
default) reference + 1 day; and with no clock pattern and no
time-of-day keyword the time of day is the 10:00 default. -/
theorem c3_base_date_resolution (text : String) (now ts : DateTime)
    (h : parse_date_time text now = some ts) :
    (∀ dn, firstWeekday (lowerStr text) = some dn →
      ts.day = now.day + daysAhead dn now) ∧
    (firstWeekday (lowerStr text) = none → hasKw "today" (lowerStr text) = true →
      ts.day = now.day) ∧
    (firstWeekday (lowerStr text) = none → hasKw "today" (lowerStr text) = false →
      ts.day = now.day + 1) ∧
    (findTime (lowerStr text) = none → hasKw "morning" (lowerStr text) = false →
      hasKw "afternoon" (lowerStr text) = false → hasKw "evening" (lowerStr text) = false →
      ts.hour = 10 ∧ ts.minute = 0) := by
  have hd := parse_date_time_day h
  refine ⟨fun dn hw => ?_, fun hw ht => ?_, fun hw ht => ?_, fun hf h1 h2 h3 => ?_⟩
  · rw [hd, baseOf_day_weekday now hw]
  · rw [hd, baseOf_day_today now hw ht]
  · rw [hd, baseOf_day_no_today now hw ht]
  · obtain ⟨b, hb, rfl⟩ := parse_date_time_eq_some h
    unfold withClockTime at hb
    rw [hf] at hb
    injection hb with hb
    unfold applyDayWords
    rw [if_neg (by simp [h1]), if_neg (by simp [h2]), if_neg (by simp [h3]), ← hb]
    exact baseOf_hm _ _

/-- C3 witness: the resolution theorem applied at `"hello there"`
(no date word at all) with reference day 5, 12:34. -/
theorem c3_base_date_resolution_witness :
    (⟨6, 10, 0⟩ : DateTime).day = (⟨5, 12, 34⟩ : DateTime).day + 1 ∧
    (⟨6, 10, 0⟩ : DateTime).hour = 10 ∧ (⟨6, 10, 0⟩ : DateTime).minute = 0 := by
  have h := c3_base_date_resolution "hello there" ⟨5, 12, 34⟩ ⟨6, 10, 0⟩ (by rfl)
  exact ⟨h.2.2.1 (by rfl) (by rfl),
    (h.2.2.2 (by rfl) (by rfl) (by rfl) (by rfl)).1,
    (h.2.2.2 (by rfl) (by rfl) (by rfl) (by rfl)).2⟩

/-- C4: when the user text contains none of the fixed scheduling
keywords, the classifier decides `shouldCreate = false` and
`_extract_appointment_data` returns `None` immediately — for every
assistant reply, reference time and database, with no draft parsed and
no database interaction. -/
theorem c4_no_keyword_no_create (user bot : String) (now : DateTime)
    (db : ApptData → Option Nat)
    (h : ∀ k ∈ appointment_keywords, substr k.data (lowerStr user) = false) :
    should_create user bot = false ∧
    extract_appointment_data db user bot now = (none, []) := by
  have hg : gate user = false := by
    unfold gate anyKw
    rw [List.any_eq_false]
    intro k hk
    simp [h k hk]
  constructor
  · unfold should_create
    rw [hg]
    rfl
  · unfold extract_appointment_data
    rw [hg]
    simp

/-- C4 witness: the gate theorem applied at `"hello"` against a
confirming assistant reply. -/
theorem c4_no_keyword_no_create_witness :
    should_create "hello" "Your appointment has been confirmed" = false ∧
    extract_appointment_data (fun _ => some 1) "hello"
      "Your appointment has been confirmed" ⟨0, 0, 0⟩ = (none, []) :=
  c4_no_keyword_no_create "hello" "Your appointment has been confirmed" ⟨0, 0, 0⟩
    (fun _ => some 1) (by decide)

/-- C5 counterexample: `classify("just checking in", "Your appointment
has been confirmed for Friday")` returns `shouldCreate = false`, not
`true`: the user text contains no scheduling keyword, so the gate
returns before the bot-confirmation check is ever reached. -/
theorem c5_gate_blocks_bot_confirmation :
    should_create "just checking in"
      "Your appointment has been confirmed for Friday" = false ∧
    extract_appointment_data (fun _ => some 1) "just checking in"
      "Your appointment has been confirmed for Friday" ⟨0, 0, 0⟩ = (none, []) ∧
    bot_confirms "Your appointment has been confirmed for Friday" = true ∧
    gate "just checking in" = false := by
  refine ⟨by rfl, by rfl, by rfl, by rfl⟩

/-- C5 (amended): the bot-confirmation path alone does decide
`shouldCreate = true`, but only once the user text passes the
scheduling-keyword gate: `classify("can you book it", "Your appointment
has been confirmed for Friday")` yields `true` with `hasDetails` false,
via `botConfirms` alone. -/
theorem c5_bot_confirmation_needs_gate :
    should_create "can you book it"
      "Your appointment has been confirmed for Friday" = true ∧
    has_details "can you book it" = false ∧
    bot_confirms "Your appointment has been confirmed for Friday" = true ∧
    gate "can you book it" = true := by
  refine ⟨by rfl, by rfl, by rfl, by rfl⟩

/-- C6 counterexample: the extraction routine does persist the draft
itself — on `"book a checkup tomorrow"` the classifier decides yes and
`_extract_appointment_data` performs a database insert (the second
component records the inserts it performed). -/
theorem c6_extraction_persists :
    should_create "book a checkup tomorrow" "" = true ∧
    (extract_appointment_data (fun _ => some 1) "book a checkup tomorrow" ""
      ⟨0, 0, 0⟩).2 ≠ [] := by
  exact ⟨by rfl, by decide⟩

/-- C6 (amended): when the classifier decides no, the routine returns
`None` with no database interaction; but when it decides yes and the
details parse, `_extract_appointment_data` itself performs exactly one
database insert of the draft and returns the draft only when the
insert yields an id — persistence is not left to the caller. -/
theorem c6_persistence_characterization (db : ApptData → Option Nat)
    (user bot : String) (now : DateTime) :
    (should_create user bot = false →
      extract_appointment_data db user bot now = (none, [])) ∧
    (∀ d, should_create user bot = true →
      parse_appointment_details user now = some d →
      extract_appointment_data db user bot now =
        ((db d).map (fun i => (d, i)), [d])) := by
  constructor
  · intro hsc
    unfold should_create at hsc
    unfold extract_appointment_data
    cases hg : gate user with
    | false => simp [hg]
    | true =>
      rw [hg] at hsc
      simp only [Bool.true_and, Bool.or_eq_false_iff] at hsc
      simp [hg, hsc.1, hsc.2]
  · intro d hsc hp
    unfold should_create at hsc
    simp only [Bool.and_eq_true, Bool.or_eq_true] at hsc
    unfold extract_appointment_data
    rw [if_pos hsc.1]
    have hob : (has_details user || bot_confirms bot) = true := by
      rcases hsc.2 with h | h <;> simp [h]
    rw [if_pos hob, hp]
    cases hdb : db d <;> simp [hdb]

/-- C6 witness: the characterisation applied at
`"book a checkup tomorrow"` with a database returning id 5. -/
theorem c6_persistence_characterization_witness :
    extract_appointment_data (fun _ => some 5) "book a checkup tomorrow" ""
      ⟨0, 0, 0⟩ =
      (some ({ title := "Medical Appointment"
               description := "book a checkup tomorrow"
               appointment_type := "medical"
               duration_minutes := 60
               location := none
               notes := none
               appointment_date := ⟨1, 10, 0⟩ }, 5),
       [{ title := "Medical Appointment"
          description := "book a checkup tomorrow"
          appointment_type := "medical"
          duration_minutes := 60
          location := none
          notes := none
          appointment_date := ⟨1, 10, 0⟩ }]) := by
  have h := (c6_persistence_characterization (fun _ => some 5)
      "book a checkup tomorrow" "" ⟨0, 0, 0⟩).2
    { title := "Medical Appointment"
      description := "book a checkup tomorrow"
      appointment_type := "medical"
      duration_minutes := 60
      location := none
      notes := none
      appointment_date := ⟨1, 10, 0⟩ } (by rfl) (by rfl)
  simpa using h

/-- C7 counterexample: with `"book appointment today"` and reference
time 15:00 on day 0, the pipeline produces a draft dated day 0 at
10:00 — strictly in the past relative to the reference now. -/
theorem c7_today_yields_past :
    extract_pipeline "book appointment today" "" ⟨0, 15, 0⟩ =
      some { title := "Appointment"
             description := "book appointment today"
             appointment_type := "general"
             duration_minutes := 60
             location := none
             notes := none
             appointment_date := ⟨0, 10, 0⟩ } ∧
    DateTime.toMinutes ⟨0, 10, 0⟩ < DateTime.toMinutes ⟨0, 15, 0⟩ := by
  exact ⟨by rfl, by decide⟩

/-- C7 (amended): whenever the user text does not contain `today`, any
draft the pipeline produces is dated strictly after the (well-formed)
reference now; the `today` case can produce a past timestamp. -/
theorem c7_future_without_today (user bot : String) (now : DateTime) (d : ApptData)
    (hwf : now.WF) (ht : hasKw "today" (lowerStr user) = false)
    (h : extract_pipeline user bot now = some d) :
    now.toMinutes < d.appointment_date.toMinutes := by
  unfold extract_pipeline at h
  split at h
  · unfold parse_appointment_details at h
    cases hp : parse_date_time user now with
    | none => rw [hp] at h; exact Option.noConfusion h
    | some dt =>
      rw [hp] at h
      injection h with h
      have hdate : d.appointment_date = dt := by rw [← h]
      have hday := parse_date_time_day hp
      obtain ⟨hh, hm⟩ := parse_date_time_hm hp
      have hge : now.day + 1 ≤ (baseOf (lowerStr user) now).day := by
        cases hw : firstWeekday (lowerStr user) with
        | some dn =>
          rw [baseOf_day_weekday now hw]
          have := daysAhead_pos dn now
          omega
        | none =>
          exact ge_of_eq (baseOf_day_no_today now hw ht)
      have h1 : now.day + 1 ≤ dt.day := by rw [hday]; exact hge
      obtain ⟨h4, h5⟩ := hwf
      unfold DateTime.toMinutes
      rw [hdate]
      omega
  · exact Option.noConfusion h

/-- C7 witness: the future-dating theorem applied at
`"book a meeting tomorrow"` with reference midnight day 0. -/
theorem c7_future_without_today_witness :
    DateTime.toMinutes ⟨0, 0, 0⟩ < DateTime.toMinutes ⟨1, 10, 0⟩ := by
  have h := c7_future_without_today "book a meeting tomorrow" "" ⟨0, 0, 0⟩
    { title := "Appointment"
      description := "book a meeting tomorrow"
      appointment_type := "general"
      duration_minutes := 60
      location := none
      notes := none
      appointment_date := ⟨1, 10, 0⟩ }
    (by unfold DateTime.WF; exact ⟨by decide, by decide⟩) (by rfl) (by rfl)
  exact h

/-- C8 counterexample: `"monday wednesday"` with reference Wednesday
(day 2) contains a weekday name equal to the reference weekday and no
`today`/`tomorrow`, yet resolves to day 7 (next Monday, the first name
in dict order), not day 2 + 7 = 9 — the claim fails when another
weekday name precedes the matching one in `days_of_week` order. -/
theorem c8_first_weekday_name_wins :
    hasKw "wednesday" (lowerStr "monday wednesday") = true ∧
    DateTime.weekday ⟨2, 0, 0⟩ = 2 ∧
    hasKw "today" (lowerStr "monday wednesday") = false ∧
    hasKw "tomorrow" (lowerStr "monday wednesday") = false ∧
    parse_date_time "monday wednesday" ⟨2, 0, 0⟩ = some ⟨7, 10, 0⟩ ∧
    (⟨7, 10, 0⟩ : DateTime).day ≠ (⟨2, 0, 0⟩ : DateTime).day + 7 := by
  refine ⟨by rfl, by decide, by rfl, by rfl, by rfl, by decide⟩

/-- C8 (amended): when the FIRST weekday name matched by the loop
(Monday→Sunday order) equals the reference weekday, the resolved date
is reference + 7 days; and a matched weekday name never resolves to the
reference day itself. -/
theorem c8_same_weekday_seven_days (text : String) (now ts : DateTime) (dn : Nat)
    (h : parse_date_time text now = some ts)
    (hw : firstWeekday (lowerStr text) = some dn) :
    ((dn : Int) = now.weekday → ts.day = now.day + 7) ∧ ts.day ≠ now.day := by
  have hd := parse_date_time_day h
  rw [hd, baseOf_day_weekday now hw]
  constructor
  · intro he
    rw [daysAhead_of_eq he]
  · have := daysAhead_pos dn now
    omega

/-- C8 witness: the roll-forward theorem applied at `"friday"` with
reference Friday (day 4): resolution lands on day 11 = 4 + 7. -/
theorem c8_same_weekday_seven_days_witness :
    (⟨11, 10, 0⟩ : DateTime).day = (⟨4, 0, 0⟩ : DateTime).day + 7 ∧
    (⟨11, 10, 0⟩ : DateTime).day ≠ (⟨4, 0, 0⟩ : DateTime).day := by
  have h := c8_same_weekday_seven_days "friday" ⟨4, 0, 0⟩ ⟨11, 10, 0⟩ 4
    (by rfl) (by rfl)
  exact ⟨h.1 (by decide), h.2⟩

/-- C9: the end-to-end example — `"Can I schedule a consultation
tomorrow at 2:30 PM for 45 minutes"` with empty assistant text and
reference 2024-01-01T00:00 (day 0) yields a draft of type
`consultation`, duration 45, dated 2024-01-02T14:30 (day 1, 14:30). -/
theorem c9_end_to_end_consultation :
    extract_pipeline
      "Can I schedule a consultation tomorrow at 2:30 PM for 45 minutes" ""
      ⟨0, 0, 0⟩ =
      some { title := "Consultation"
             description := "Can I schedule a consultation tomorrow at 2:30 PM for 45 minutes"
             appointment_type := "consultation"
             duration_minutes := 45
             location := none
             notes := none
             appointment_date := ⟨1, 14, 30⟩ } := by rfl

/-- C10: keyword detection is raw lowercase substring containment with
no word boundaries: any user text containing `am` anywhere (e.g. inside
`exam` or `team`) makes `has_details` true, and `book` inside
`facebook` or `visit` inside `revisit` passes the scheduling-intent
gate. -/
theorem c10_raw_substring_detection :
    (∀ user : String, substr "am".data (lowerStr user) = true →
      has_details user = true) ∧
    gate "I saw it on facebook" = true ∧
    gate "please revisit the plan" = true ∧
    has_details "the final exam" = true ∧
    has_details "my team" = true := by
  refine ⟨fun user h => ?_, by rfl, by rfl, by rfl, by rfl⟩
  unfold has_details anyKw
  rw [List.any_eq_true]
  exact ⟨"am", by decide, h⟩

/-- C10 witness: the containment rule applied at `"the exam"`. -/
theorem c10_raw_substring_detection_witness :
    has_details "the exam" = true :=
  c10_raw_substring_detection.1 "the exam" (by rfl)
